import Mathlib

/-!
Verification development for the scheduled-report delivery pipeline of the
VeeamDash repository.

Shallow embedding notes.  The embedded functions are translated from the
TypeScript source (the `SchedulerService` class in `install.sh` and the
`PlaywrightPdfService` class in `server/pdf-service.ts`, together with the
storage and email-service collaborators).  Database/storage operations are
modelled as total functions on an explicit ledger state: the claims under
study are about delivery-configuration, recipient, render and transport
failures, all of which the source raises and catches inside
`executeSchedule`; storage failures are outside their scope.  Asynchronous
suspension is modelled by a small-step transition system where a claim is
about interleaving, and by an explicit linearisation of one tick elsewhere.
-/

/-- A report schedule row, as read by the scheduler
(`reportSchedules` table / `ReportSchedule` type).  `frequency` is a plain
string in the source ("daily" | "weekly" | "monthly"), `dayOfWeek` and
`dayOfMonth` are nullable integer columns. -/
structure ReportSchedule where
  id : String
  name : String
  companyId : String
  companyName : String
  frequency : String
  dayOfWeek : Option Nat
  dayOfMonth : Option Nat
  hour : Nat
  minute : Nat
  isActive : Bool
deriving DecidableEq, Repr

/-- `SchedulerService.shouldScheduleRun` (install.sh).  Mirrors:
hour/minute must match exactly; then switch on `frequency`, with a
`default: return false` branch; `schedule.dayOfWeek === dayOfWeek` on a
nullable column is equality with `some`. -/
def shouldScheduleRun (schedule : ReportSchedule)
    (hour minute dayOfWeek dayOfMonth : Nat) : Bool :=
  if schedule.hour ≠ hour ∨ schedule.minute ≠ minute then
    false
  else
    match schedule.frequency with
    | "daily" => true
    | "weekly" => schedule.dayOfWeek = some dayOfWeek
    | "monthly" => schedule.dayOfMonth = some dayOfMonth
    | _ => false

/-- Status column of a `scheduleRuns` row ("running" | "success" | "failed"). -/
inductive RunStatus where
  | running
  | success
  | failed
deriving DecidableEq, Repr

/-- A `scheduleRuns` row as created and updated by the scheduler. -/
structure ScheduleRun where
  id : Nat
  scheduleId : String
  status : RunStatus
  recipientCount : Nat
  errorMessage : Option String
  completedAt : Bool
deriving DecidableEq, Repr

/-- The Run Ledger: the `scheduleRuns` table plus the id sequence. -/
structure LedgerState where
  nextRunId : Nat
  runs : List ScheduleRun
deriving DecidableEq, Repr

/-- `storage.createScheduleRun` with `{scheduleId, status: "running",
recipientCount: 0}`: inserts a fresh row and returns it. -/
def createScheduleRun (st : LedgerState) (scheduleId : String) :
    ScheduleRun × LedgerState :=
  let run : ScheduleRun :=
    { id := st.nextRunId, scheduleId := scheduleId, status := .running
      recipientCount := 0, errorMessage := none, completedAt := false }
  (run, { nextRunId := st.nextRunId + 1, runs := st.runs ++ [run] })

/-- The partial-update record passed to `storage.updateScheduleRun`. -/
structure RunUpdate where
  status : RunStatus
  recipientCount : Option Nat
  errorMessage : Option String
  completedAt : Bool
deriving DecidableEq, Repr

/-- Apply a partial update to one row (fields absent from the update keep
their stored value, as for a SQL `SET` of the provided columns). -/
def applyUpdate (u : RunUpdate) (r : ScheduleRun) : ScheduleRun :=
  { r with
    status := u.status
    recipientCount := u.recipientCount.getD r.recipientCount
    errorMessage := if u.errorMessage.isSome then u.errorMessage else r.errorMessage
    completedAt := u.completedAt }

/-- `storage.updateScheduleRun`: update the row whose id matches. -/
def updateScheduleRun (st : LedgerState) (rid : Nat) (u : RunUpdate) :
    LedgerState :=
  { st with runs := st.runs.map fun r => if r.id = rid then applyUpdate u r else r }

/-- All run rows of a given schedule id, in insertion order. -/
def runsFor (scheduleId : String) (st : LedgerState) : List ScheduleRun :=
  st.runs.filter fun r => r.scheduleId = scheduleId

/-- Lookup of a run row by row id. -/
def findRun (st : LedgerState) (rid : Nat) : Option ScheduleRun :=
  st.runs.find? fun r => r.id = rid

/-- Ledger well-formedness: every stored row id is below the id sequence
(true of the database sequence the source relies on). -/
def LedgerState.WF (st : LedgerState) : Prop :=
  ∀ r ∈ st.runs, r.id < st.nextRunId

instance (st : LedgerState) : Decidable st.WF := by
  unfold LedgerState.WF
  infer_instance

/-- The report print-view page as seen by the readiness poll of
`PlaywrightPdfService.generatePdf`, as oracles indexed by elapsed
milliseconds: `window.__REPORT_READY__ === true` and the presence of a
`[data-error="true"]` element. -/
structure ReportPage where
  ready : Nat → Bool
  hasError : Nat → Bool

/-- `maxWaitTime` of the readiness poll (pdf-service.ts). -/
def maxWaitTime : Nat := 60000

/-- `checkInterval` of the readiness poll (pdf-service.ts). -/
def checkInterval : Nat := 2000

/-- Error thrown when the error marker is observed during the poll. -/
def upstreamErrMsg : String :=
  "Report page shows error - data not available for this client"

/-- Error thrown when the poll times out without readiness. -/
def timeoutErrMsg : String :=
  "Report failed to load within timeout - check if all API endpoints are responding"

/-- Result of the readiness-poll loop: `.ok true` means ready, `.ok false`
means the loop exited by the `elapsed < maxWaitTime` guard (timeout);
`polled` lists the elapsed values at which the readiness flag was read. -/
structure PollResult where
  result : Except String Bool
  polled : List Nat
deriving Repr

/-- The `while (elapsed < maxWaitTime && !isReady)` loop of `generatePdf`:
read the readiness flag; if not ready, fail if the error marker is present,
otherwise wait `checkInterval` and repeat.  `fuel` is a structural bound on
iterations only; with `elapsed` advancing by `checkInterval = 2000` from 0
the guard exits after at most 30 iterations, so any `fuel ≥ 31` makes the
guard, not the fuel, the binding exit condition. -/
def pollFrom (page : ReportPage) (fuel : Nat) (elapsed : Nat) : PollResult :=
  match fuel with
  | 0 => { result := .ok false, polled := [] }
  | fuel + 1 =>
    if elapsed < maxWaitTime then
      if page.ready elapsed then
        { result := .ok true, polled := [elapsed] }
      else if page.hasError elapsed then
        { result := .error upstreamErrMsg, polled := [elapsed] }
      else
        let rest := pollFrom page fuel (elapsed + checkInterval)
        { result := rest.result, polled := elapsed :: rest.polled }
    else
      { result := .ok false, polled := [] }

/-- The poll as entered by `generatePdf`: `elapsed = 0`. -/
def pollReadiness (page : ReportPage) : PollResult :=
  pollFrom page 31 0

/-- Outcomes of the collaborators one render interacts with:
`authNav` is `authenticateAndNavigate` (login plus `page.goto`), `page` the
print view's readiness/error oracles, `capture` the settle wait plus
`page.pdf` call. -/
structure RenderEnv where
  authNav : Except String Unit
  page : ReportPage
  capture : Except String Unit

/-- Observable resource events of one `generatePdf` call. -/
inductive RenderEvent where
  | browserLaunch
  | contextOpen
  | pageOpen
  | poll (elapsed : Nat)
  | pageClose
  | contextClose
  | browserClose
deriving DecidableEq, Repr

/-- Result of one `generatePdf` call: the produced artifact or the thrown
error, whether the shared browser is initialized afterwards, and the
resource-event trace. -/
structure PdfOutcome where
  result : Except String Unit
  browserAfter : Bool
  events : List RenderEvent

/-- `PlaywrightPdfService.generatePdf`: `initialize()` lazily launches the
shared browser; a fresh context and page are opened; the try-body
authenticates and navigates, runs the readiness poll, errors on timeout,
then captures; the `finally` closes the page and the context (never the
browser), on success and on failure alike. -/
def generatePdf (renv : RenderEnv) (browserInit : Bool) : PdfOutcome :=
  let launchEvents : List RenderEvent :=
    if browserInit then [] else [.browserLaunch]
  let poll := pollReadiness renv.page
  let bodyResult : Except String Unit :=
    match renv.authNav with
    | .error e => .error e
    | .ok _ =>
      match poll.result with
      | .error e => .error e
      | .ok false => .error timeoutErrMsg
      | .ok true => renv.capture
  let bodyEvents : List RenderEvent :=
    match renv.authNav with
    | .error _ => []
    | .ok _ => poll.polled.map .poll
  { result := bodyResult
    browserAfter := true
    events := launchEvents ++ [.contextOpen, .pageOpen] ++ bodyEvents
                ++ [.pageClose, .contextClose] }

/-- The artifact-or-error outcome of a render, as seen by the scheduler
(independent of the lazily-initialized browser state). -/
def generatePdfResult (renv : RenderEnv) : Except String Unit :=
  (generatePdf renv true).result

/-- Collaborator outcomes for one execution attempt:
`emailConfigured` is `emailService.isConfigured()`, `recipients` the email
column of `storage.getScheduleRecipients`, `render` the render collaborators
keyed by company id, `emailSend` the `emailService.sendReportEmail` call. -/
structure ExecEnv where
  emailConfigured : Bool
  recipients : String → List String
  render : String → RenderEnv
  emailSend : Except String Unit

/-- Error thrown by `executeSchedule` when the email service is not configured. -/
def emailCfgErrMsg : String :=
  "Email service not configured. Please set M365 environment variables."

/-- Error thrown by `executeSchedule` when the schedule has no recipients. -/
def noRecipientsErrMsg : String :=
  "No recipients configured for this schedule"

/-- The try-body of `executeSchedule` (steps 2–4): configuration check,
recipient check, render, delivery.  Returns the recipient count on success
or the thrown error's message, paired with the number of
`playwrightPdfService.generatePdf` invocations performed. -/
def attemptOutcome (env : ExecEnv) (schedule : ReportSchedule) :
    Except String Nat × Nat :=
  if env.emailConfigured = false then
    (.error emailCfgErrMsg, 0)
  else
    let recipientEmails := env.recipients schedule.id
    if recipientEmails.length = 0 then
      (.error noRecipientsErrMsg, 0)
    else
      match generatePdfResult (env.render schedule.companyId) with
      | .error msg => (.error msg, 1)
      | .ok _ =>
        match env.emailSend with
        | .error msg => (.error msg, 1)
        | .ok _ => (.ok recipientEmails.length, 1)

/-- The single terminal `updateScheduleRun` data of `executeSchedule`:
success with recipient count, or failed with the caught error's message. -/
def runUpdateFor : Except String Nat → RunUpdate
  | .ok n => { status := .success, recipientCount := some n
               errorMessage := none, completedAt := true }
  | .error msg => { status := .failed, recipientCount := none
                    errorMessage := some msg, completedAt := true }

/-- Result of `executeSchedule`: final ledger, the created run's id, and
how many render invocations happened. -/
structure ExecOutcome where
  state : LedgerState
  runId : Nat
  renderCalls : Nat

/-- `SchedulerService.executeSchedule` (install.sh): create the run with
status "running", run the try-body, and apply exactly one terminal update.
The catch block records the failure and does not rethrow, so the function
is total: no step failure escapes to the caller. -/
def executeSchedule (env : ExecEnv) (schedule : ReportSchedule)
    (st : LedgerState) : ExecOutcome :=
  let created := createScheduleRun st schedule.id
  let attempt := attemptOutcome env schedule
  { state := updateScheduleRun created.2 created.1.id (runUpdateFor attempt.1)
    runId := created.1.id
    renderCalls := attempt.2 }

/-- `storage.getReportScheduleById`: select by id. -/
def getReportScheduleById (repo : List ReportSchedule) (id : String) :
    Option ReportSchedule :=
  repo.find? fun s => s.id = id

/-- The `{success, message}` value returned by `executeManually`. -/
structure ManualResult where
  success : Bool
  message : String
deriving DecidableEq, Repr

/-- `SchedulerService.executeManually` (the `runNow` entry point): look the
schedule up; if absent return failure with the Portuguese not-found
message; otherwise run `executeSchedule` and return the fixed success
message.  Because `executeSchedule` catches every step failure itself, the
surrounding catch is unreachable under total storage. -/
def executeManually (env : ExecEnv) (repo : List ReportSchedule)
    (scheduleId : String) (st : LedgerState) : ManualResult × LedgerState :=
  match getReportScheduleById repo scheduleId with
  | none => ({ success := false, message := "Agendamento não encontrado" }, st)
  | some schedule =>
    ({ success := true, message := "Relatório enviado com sucesso" },
     (executeSchedule env schedule st).state)

/-- `this.executingSchedules.has(id)` on the in-memory `Set<string>`. -/
def lockHas (executing : List String) (id : String) : Bool :=
  executing.contains id

/-- `this.executingSchedules.add(id)` (idempotent, as for a JS `Set`). -/
def lockAdd (executing : List String) (id : String) : List String :=
  if lockHas executing id then executing else id :: executing

/-- `this.executingSchedules.delete(id)`. -/
def lockDelete (executing : List String) (id : String) : List String :=
  executing.filter fun x => x ≠ id

/-- The tick loop's acquire pattern: the `has` check of
`checkAndExecuteSchedules` followed, when absent, by the `add` of
`executeScheduleWithLock` — the two run with no suspension point between
them, so together they are the spec's atomic `tryAcquire`. -/
def tryAcquire (executing : List String) (id : String) :
    Bool × List String :=
  if lockHas executing id then (false, executing)
  else (true, lockAdd executing id)

/-- Observable events on the Execution Lock. -/
inductive LockEvent where
  | acquire (id : String)
  | release (id : String)
deriving DecidableEq, Repr

/-- `SchedulerService.executeScheduleWithLock`: `add` the id, run
`executeSchedule`, and `delete` the id in a `finally`.  `executeSchedule`
is total (its catch swallows every step failure), so the body completes and
the `finally` releases exactly once whatever the attempt's outcome. -/
def executeScheduleWithLock (env : ExecEnv) (schedule : ReportSchedule)
    (executing : List String) (st : LedgerState) :
    List String × LedgerState × List LockEvent :=
  let executing1 := lockAdd executing schedule.id
  let out := executeSchedule env schedule st
  (lockDelete executing1 schedule.id, out.state,
   [.acquire schedule.id, .release schedule.id])

/-- The current wall-clock fields read at the top of a tick
(`getHours`/`getMinutes`/`getDay`/`getDate` in the business timezone). -/
structure Now where
  hour : Nat
  minute : Nat
  dayOfWeek : Nat
  dayOfMonth : Nat
deriving DecidableEq, Repr

/-- `storage.getActiveSchedules`: select where `isActive = true`. -/
def getActiveSchedules (repo : List ReportSchedule) : List ReportSchedule :=
  repo.filter fun s => s.isActive

/-- The synchronous phase of one tick of `checkAndExecuteSchedules`: walk
the active schedules in order; skip any whose id is already in the
executing set; for each match of `shouldScheduleRun` add its id to the set
(the synchronous prefix of `executeScheduleWithLock`) and collect it as
launched.  Returns the executing set after the loop and the launched
schedules in order. -/
def tickSyncPhase (now : Now) (schedules : List ReportSchedule)
    (executing : List String) : List String × List ReportSchedule :=
  match schedules with
  | [] => (executing, [])
  | s :: rest =>
    if lockHas executing s.id then
      tickSyncPhase now rest executing
    else if shouldScheduleRun s now.hour now.minute now.dayOfWeek now.dayOfMonth then
      let next := tickSyncPhase now rest (lockAdd executing s.id)
      (next.1, s :: next.2)
    else
      tickSyncPhase now rest executing

/-- The settle phase of one tick (`Promise.allSettled`): each launched
execution runs `executeSchedule` and then releases its lock entry.  The
executions touch distinct fresh run rows, so this sequential linearisation
has the same ledger and lock effect as any interleaving of them. -/
def tickSettlePhase (env : ExecEnv) (launched : List ReportSchedule)
    (executing : List String) (st : LedgerState) :
    List String × LedgerState :=
  match launched with
  | [] => (executing, st)
  | s :: rest =>
    let out := executeSchedule env s st
    tickSettlePhase env rest (lockDelete executing s.id) out.state

/-- Net effect of one tick. -/
structure TickOutcome where
  executing : List String
  ledger : LedgerState
  launched : List ReportSchedule

/-- `SchedulerService.checkAndExecuteSchedules`, one tick: fetch the active
schedules, run the synchronous evaluation/launch loop, then settle the
launched executions. -/
def checkAndExecuteSchedules (env : ExecEnv) (now : Now)
    (repo : List ReportSchedule) (executing : List String)
    (st : LedgerState) : TickOutcome :=
  let active := getActiveSchedules repo
  let sync := tickSyncPhase now active executing
  let settled := tickSettlePhase env sync.2 sync.1 st
  { executing := settled.1, ledger := settled.2, launched := sync.2 }

namespace TickSys

/-- A tick-driven run record as tracked by the concurrency model: the row
id, the schedule it belongs to, and its current status. -/
structure TickRun where
  rid : Nat
  scheduleId : String
  status : RunStatus
deriving DecidableEq, Repr

/-- Global state of the tick-driven scheduler: the Execution Lock set and
the tick-created run rows. -/
structure SysState where
  executing : List String
  runs : List TickRun
  nextId : Nat
deriving DecidableEq, Repr

/-- Initial state: nothing executing, no runs. -/
def initState : SysState := { executing := [], runs := [], nextId := 0 }

/-- Interleaving steps of the tick-driven scheduler.

`launch`: a tick finds `shouldScheduleRun` true for a schedule and its
`tryAcquire` succeeds, so the execution starts and synchronously creates
its run with status "running" while holding the lock.

`finish`: a started execution applies its single terminal update (the
catch/success branch of `executeSchedule`) and then the `finally` of
`executeScheduleWithLock` releases the lock entry. -/
inductive Step : SysState → SysState → Prop where
  | launch (s : SysState) (sched : ReportSchedule) (now : Now)
      (hmatch : shouldScheduleRun sched now.hour now.minute
                  now.dayOfWeek now.dayOfMonth = true)
      (hacq : (tryAcquire s.executing sched.id).1 = true) :
      Step s { executing := (tryAcquire s.executing sched.id).2
               runs := s.runs ++ [⟨s.nextId, sched.id, .running⟩]
               nextId := s.nextId + 1 }
  | finish (s : SysState) (rid : Nat) (schedId : String) (final : RunStatus)
      (hterm : final ≠ .running)
      (hmem : (⟨rid, schedId, .running⟩ : TickRun) ∈ s.runs) :
      Step s { executing := lockDelete s.executing schedId
               runs := s.runs.map fun r =>
                 if r.rid = rid then { r with status := final } else r
               nextId := s.nextId }

/-- States reachable from the initial state. -/
inductive Reachable : SysState → Prop where
  | init : Reachable initState
  | step {s t : SysState} : Reachable s → Step s t → Reachable t

/-- Every run with status "running" holds its Execution Lock entry. -/
def RunningLocked (s : SysState) : Prop :=
  ∀ r ∈ s.runs, r.status = .running → lockHas s.executing r.scheduleId = true

/-- At most one run per schedule id has status "running". -/
def AtMostOneRunning (s : SysState) : Prop :=
  ∀ r1 ∈ s.runs, ∀ r2 ∈ s.runs,
    r1.status = .running → r2.status = .running →
    r1.scheduleId = r2.scheduleId → r1 = r2

instance (s : SysState) : Decidable (RunningLocked s) := by
  unfold RunningLocked
  infer_instance

instance (s : SysState) : Decidable (AtMostOneRunning s) := by
  unfold AtMostOneRunning
  infer_instance

end TickSys

/-- Empty Run Ledger. -/
def ledger0 : LedgerState := { nextRunId := 0, runs := [] }

/-- Sample active daily schedule (08:00). -/
def schedDaily : ReportSchedule :=
  { id := "sch-daily", name := "Daily report", companyId := "comp-1"
    companyName := "Acme", frequency := "daily", dayOfWeek := none
    dayOfMonth := none, hour := 8, minute := 0, isActive := true }

/-- Sample deactivated daily schedule (08:00, isActive = false). -/
def schedInactive : ReportSchedule :=
  { id := "sch-inactive", name := "Paused report", companyId := "comp-2"
    companyName := "Beta", frequency := "daily", dayOfWeek := none
    dayOfMonth := none, hour := 8, minute := 0, isActive := false }

/-- Sample weekly schedule: Monday (dayOfWeek = 1) 08:00. -/
def schedWeekly : ReportSchedule :=
  { id := "sch-weekly", name := "Weekly report", companyId := "comp-3"
    companyName := "Gamma", frequency := "weekly", dayOfWeek := some 1
    dayOfMonth := none, hour := 8, minute := 0, isActive := true }

/-- Sample monthly schedule with dayOfMonth = 31. -/
def schedMonthly31 : ReportSchedule :=
  { id := "sch-m31", name := "Monthly report", companyId := "comp-4"
    companyName := "Delta", frequency := "monthly", dayOfWeek := none
    dayOfMonth := some 31, hour := 8, minute := 0, isActive := true }

/-- Sample monthly schedule with dayOfMonth = 29. -/
def schedMonthly29 : ReportSchedule :=
  { id := "sch-m29", name := "Monthly report", companyId := "comp-5"
    companyName := "Eps", frequency := "monthly", dayOfWeek := none
    dayOfMonth := some 29, hour := 8, minute := 0, isActive := true }

/-- A print view that is ready immediately. -/
def pageReady : ReportPage := { ready := fun _ => true, hasError := fun _ => false }

/-- A print view that shows the error marker and never becomes ready. -/
def pageErr : ReportPage := { ready := fun _ => false, hasError := fun _ => true }

/-- Render collaborators that all succeed. -/
def renvOk : RenderEnv := { authNav := .ok (), page := pageReady, capture := .ok () }

/-- Render collaborators where the print view shows the error marker. -/
def renvErr : RenderEnv := { authNav := .ok (), page := pageErr, capture := .ok () }

/-- Attempt environment with the email service unconfigured. -/
def envNoEmail : ExecEnv :=
  { emailConfigured := false, recipients := fun _ => ["ops@acme.test"]
    render := fun _ => renvOk, emailSend := .ok () }

/-- Attempt environment where everything succeeds. -/
def envOk : ExecEnv :=
  { emailConfigured := true, recipients := fun _ => ["ops@acme.test"]
    render := fun _ => renvOk, emailSend := .ok () }

/-- Attempt environment where the print view shows the error marker. -/
def envRenderErr : ExecEnv :=
  { emailConfigured := true, recipients := fun _ => ["ops@acme.test"]
    render := fun _ => renvErr, emailSend := .ok () }

/-- Tick time Monday 08:00, day of month 5. -/
def nowMon8 : Now := { hour := 8, minute := 0, dayOfWeek := 1, dayOfMonth := 5 }

theorem map_update_eq_of_ne {runs : List ScheduleRun} {rid : Nat}
    (g : ScheduleRun → ScheduleRun) (h : ∀ r ∈ runs, r.id ≠ rid) :
    (runs.map fun r => if r.id = rid then g r else r) = runs := by
  induction runs with
  | nil => rfl
  | cons r rest ih =>
    have hr : r.id ≠ rid := h r (by simp)
    simp only [List.map_cons, if_neg hr, List.cons.injEq, true_and]
    exact ih fun x hx => h x (by simp [hx])

/-- The ledger after `executeSchedule`: the original rows unchanged, plus
the fresh row already carrying its single terminal update. -/
theorem executeSchedule_state_eq (env : ExecEnv) (sched : ReportSchedule)
    (st : LedgerState) (h : st.WF) :
    (executeSchedule env sched st).state =
      { nextRunId := st.nextRunId + 1
        runs := st.runs ++ [applyUpdate (runUpdateFor (attemptOutcome env sched).1)
          { id := st.nextRunId, scheduleId := sched.id, status := .running
            recipientCount := 0, errorMessage := none, completedAt := false }] } := by
  have hne : ∀ r ∈ st.runs, r.id ≠ st.nextRunId := fun r hr => Nat.ne_of_lt (h r hr)
  simp [executeSchedule, createScheduleRun, updateScheduleRun,
        map_update_eq_of_ne _ hne]

theorem executeSchedule_runId (env : ExecEnv) (sched : ReportSchedule)
    (st : LedgerState) : (executeSchedule env sched st).runId = st.nextRunId := rfl

theorem executeSchedule_renderCalls (env : ExecEnv) (sched : ReportSchedule)
    (st : LedgerState) :
    (executeSchedule env sched st).renderCalls = (attemptOutcome env sched).2 := rfl

/-- The created run's terminal row, looked up by its id. -/
theorem findRun_executeSchedule (env : ExecEnv) (sched : ReportSchedule)
    (st : LedgerState) (h : st.WF) :
    findRun (executeSchedule env sched st).state st.nextRunId =
      some (applyUpdate (runUpdateFor (attemptOutcome env sched).1)
        { id := st.nextRunId, scheduleId := sched.id, status := .running
          recipientCount := 0, errorMessage := none, completedAt := false }) := by
  rw [executeSchedule_state_eq env sched st h]
  unfold findRun
  rw [List.find?_append]
  have h1 : st.runs.find? (fun r => r.id = st.nextRunId) = none := by
    rw [List.find?_eq_none]
    intro r hr
    simp [Nat.ne_of_lt (h r hr)]
  rw [h1]
  simp [applyUpdate]

/-- `executeSchedule` touches no run rows of other schedules. -/
theorem runsFor_executeSchedule_ne (env : ExecEnv) (sched : ReportSchedule)
    (st : LedgerState) (q : String) (h : st.WF) (hq : q ≠ sched.id) :
    runsFor q (executeSchedule env sched st).state = runsFor q st := by
  rw [executeSchedule_state_eq env sched st h]
  unfold runsFor
  rw [List.filter_append]
  have hne : ¬sched.id = q := fun hc => hq hc.symm
  simp [applyUpdate, hne]

theorem WF_executeSchedule (env : ExecEnv) (sched : ReportSchedule)
    (st : LedgerState) (h : st.WF) : (executeSchedule env sched st).state.WF := by
  rw [executeSchedule_state_eq env sched st h]
  intro r hr
  rcases List.mem_append.1 hr with h1 | h2
  · exact Nat.lt_succ_of_lt (h r h1)
  · simp at h2
    rw [h2]
    simp [applyUpdate]

/-- Claim C4: if the Delivery Channel is unconfigured or the recipient list
is empty, the attempt performs zero render invocations and its Run ends in
status "failed" carrying one of the two configuration-error messages. -/
theorem c4_config_error_no_render (env : ExecEnv) (sched : ReportSchedule)
    (st : LedgerState) (hwf : st.WF)
    (hcfg : env.emailConfigured = false ∨ env.recipients sched.id = []) :
    (executeSchedule env sched st).renderCalls = 0 ∧
    ∃ msg, (msg = emailCfgErrMsg ∨ msg = noRecipientsErrMsg) ∧
      findRun (executeSchedule env sched st).state st.nextRunId =
        some { id := st.nextRunId, scheduleId := sched.id, status := .failed
               recipientCount := 0, errorMessage := some msg, completedAt := true } := by
  have hout : ∃ msg, (msg = emailCfgErrMsg ∨ msg = noRecipientsErrMsg) ∧
      attemptOutcome env sched = (.error msg, 0) := by
    rcases hcfg with hc | hr
    · exact ⟨emailCfgErrMsg, Or.inl rfl, by simp [attemptOutcome, hc]⟩
    · cases hc2 : env.emailConfigured with
      | false => exact ⟨emailCfgErrMsg, Or.inl rfl, by simp [attemptOutcome, hc2]⟩
      | true => exact ⟨noRecipientsErrMsg, Or.inr rfl, by simp [attemptOutcome, hc2, hr]⟩
  rcases hout with ⟨msg, hmsg, hatt⟩
  refine ⟨?_, msg, hmsg, ?_⟩
  · rw [executeSchedule_renderCalls, hatt]
  · rw [findRun_executeSchedule env sched st hwf, hatt]
    simp [applyUpdate, runUpdateFor]

theorem c4_config_error_no_render_witness :
    (executeSchedule envNoEmail schedDaily ledger0).renderCalls = 0 ∧
    ∃ msg, (msg = emailCfgErrMsg ∨ msg = noRecipientsErrMsg) ∧
      findRun (executeSchedule envNoEmail schedDaily ledger0).state 0 =
        some { id := 0, scheduleId := "sch-daily", status := .failed
               recipientCount := 0, errorMessage := some msg, completedAt := true } :=
  c4_config_error_no_render envNoEmail schedDaily ledger0 (by decide) (Or.inl rfl)

/-- Counterexample to claim C2: with the email service unconfigured the
manual attempt fails (its Run ends failed with the configuration message),
yet `executeManually` returns success = true — because `executeSchedule`
swallows every step failure, nothing reaches `runNow`'s return value. -/
theorem c2_runNow_success_despite_failure_cex :
    (executeManually envNoEmail [schedDaily] "sch-daily" ledger0).1.success = true ∧
    (executeManually envNoEmail [schedDaily] "sch-daily" ledger0).2.runs =
      [{ id := 0, scheduleId := "sch-daily", status := .failed
         recipientCount := 0, errorMessage := some emailCfgErrMsg
         completedAt := true }] :=
  ⟨rfl, rfl⟩

/-- Claim C2 amended: for every existing schedule, `runNow` returns
success = true with the fixed success message regardless of the attempt's
outcome; a failed attempt is recorded only in the Run Ledger. -/
theorem c2_runNow_returns_success_amended (env : ExecEnv)
    (repo : List ReportSchedule) (sid : String) (st : LedgerState)
    (s : ReportSchedule) (h : getReportScheduleById repo sid = some s) :
    executeManually env repo sid st =
      ({ success := true, message := "Relatório enviado com sucesso" },
       (executeSchedule env s st).state) := by
  simp [executeManually, h]

theorem c2_runNow_returns_success_amended_witness :
    executeManually envNoEmail [schedDaily] "sch-daily" ledger0 =
      ({ success := true, message := "Relatório enviado com sucesso" },
       (executeSchedule envNoEmail schedDaily ledger0).state) :=
  c2_runNow_returns_success_amended envNoEmail [schedDaily] "sch-daily" ledger0
    schedDaily rfl

/-- Counterexample to claim C5: on a nonexistent id `executeManually` does
return failure and creates no Run, but its message is the Portuguese
"Agendamento não encontrado", not the claimed "schedule not found". -/
theorem c5_not_found_message_cex :
    (executeManually envOk [] "sch-missing" ledger0).1 =
      { success := false, message := "Agendamento não encontrado" } ∧
    (executeManually envOk [] "sch-missing" ledger0).2 = ledger0 ∧
    "Agendamento não encontrado" ≠ "schedule not found" :=
  ⟨rfl, rfl, by decide⟩

/-- Claim C5 amended: for every schedule id absent from the Repository,
`runNow` returns success = false with message "Agendamento não encontrado"
(Portuguese for "schedule not found") and leaves the Run Ledger unchanged. -/
theorem c5_not_found_amended (env : ExecEnv) (repo : List ReportSchedule)
    (sid : String) (st : LedgerState)
    (h : getReportScheduleById repo sid = none) :
    executeManually env repo sid st =
      ({ success := false, message := "Agendamento não encontrado" }, st) := by
  simp [executeManually, h]

theorem c5_not_found_amended_witness :
    executeManually envOk [] "sch-missing" ledger0 =
      ({ success := false, message := "Agendamento não encontrado" }, ledger0) :=
  c5_not_found_amended envOk [] "sch-missing" ledger0 rfl

/-- Claim C7: a monthly schedule with dayOfMonth = 31 never matches when
the current day of month is at most 30, and dayOfMonth 29–31 never matches
when the current day of month is at most 28 (February of a non-leap year). -/
theorem c7_monthly_day31_never_matches (s : ReportSchedule)
    (hf : s.frequency = "monthly") (hour minute dayOfWeek dayOfMonth : Nat) :
    (s.dayOfMonth = some 31 → dayOfMonth ≤ 30 →
      shouldScheduleRun s hour minute dayOfWeek dayOfMonth = false) ∧
    (∀ d, 29 ≤ d → d ≤ 31 → s.dayOfMonth = some d → dayOfMonth ≤ 28 →
      shouldScheduleRun s hour minute dayOfWeek dayOfMonth = false) := by
  constructor
  · intro hd hle
    simp only [shouldScheduleRun, hf, hd]
    split
    · rfl
    · simp only [Option.some.injEq, decide_eq_false_iff_not]
      omega
  · intro d h29 h31 hd hle
    simp only [shouldScheduleRun, hf, hd]
    split
    · rfl
    · simp only [Option.some.injEq, decide_eq_false_iff_not]
      omega

theorem c7_monthly_day31_never_matches_witness :
    shouldScheduleRun schedMonthly31 8 0 1 30 = false ∧
    shouldScheduleRun schedMonthly29 8 0 1 28 = false :=
  ⟨(c7_monthly_day31_never_matches schedMonthly31 rfl 8 0 1 30).1 rfl (by decide),
   (c7_monthly_day31_never_matches schedMonthly29 rfl 8 0 1 28).2 29
     (by decide) (by decide) rfl (by decide)⟩

/-- Claim C8: a weekly schedule with dayOfWeek = 1, hour = 8, minute = 0
matches at Monday 08:00, does not match at Monday 08:01, and does not
match at Tuesday 08:00, for any day of month. -/
theorem c8_weekly_matcher_examples (s : ReportSchedule)
    (hf : s.frequency = "weekly") (hd : s.dayOfWeek = some 1)
    (hh : s.hour = 8) (hm : s.minute = 0) (dayOfMonth : Nat) :
    shouldScheduleRun s 8 0 1 dayOfMonth = true ∧
    shouldScheduleRun s 8 1 1 dayOfMonth = false ∧
    shouldScheduleRun s 8 0 2 dayOfMonth = false := by
  refine ⟨?_, ?_, ?_⟩ <;> simp [shouldScheduleRun, hf, hd, hh, hm]

theorem c8_weekly_matcher_examples_witness :
    shouldScheduleRun schedWeekly 8 0 1 5 = true ∧
    shouldScheduleRun schedWeekly 8 1 1 5 = false ∧
    shouldScheduleRun schedWeekly 8 0 2 5 = false :=
  c8_weekly_matcher_examples schedWeekly rfl rfl rfl rfl 5

theorem renderEvent_beq_poll_false (e : RenderEvent) (h : ∀ t, e ≠ .poll t)
    (l : List Nat) : (l.map RenderEvent.poll).count e = 0 := by
  rw [List.count_eq_zero]
  intro hmem
  rcases List.mem_map.1 hmem with ⟨t, _, ht⟩
  exact h t ht.symm

/-- Claim C6: the Execution Lock entry of a tick-driven execution is
released exactly once on exit whatever the attempt's outcome, and every
render closes its page and its browsing context exactly once on exit while
never closing (and leaving initialized) the shared browser. -/
theorem c6_cleanup_exactly_once (env : ExecEnv) (sched : ReportSchedule)
    (executing : List String) (st : LedgerState) (renv : RenderEnv)
    (binit : Bool) :
    (executeScheduleWithLock env sched executing st).2.2.count
        (.release sched.id) = 1 ∧
    (generatePdf renv binit).events.count .pageClose = 1 ∧
    (generatePdf renv binit).events.count .contextClose = 1 ∧
    (generatePdf renv binit).events.count .browserClose = 0 ∧
    (generatePdf renv binit).browserAfter = true := by
  have h1 : ((pollReadiness renv.page).polled.map RenderEvent.poll).count
      RenderEvent.pageClose = 0 :=
    renderEvent_beq_poll_false _ (fun t h => by cases h) _
  have h2 : ((pollReadiness renv.page).polled.map RenderEvent.poll).count
      RenderEvent.contextClose = 0 :=
    renderEvent_beq_poll_false _ (fun t h => by cases h) _
  have h3 : ((pollReadiness renv.page).polled.map RenderEvent.poll).count
      RenderEvent.browserClose = 0 :=
    renderEvent_beq_poll_false _ (fun t h => by cases h) _
  refine ⟨?_, ?_⟩
  · simp [executeScheduleWithLock, List.count_cons, List.count_nil]
  · rcases hA : renv.authNav with e | u <;> cases binit <;>
      simp [generatePdf, hA, List.count_append, h1, h2, h3]

theorem lockHas_true_iff (ex : List String) (id : String) :
    lockHas ex id = true ↔ id ∈ ex := by
  simp [lockHas, List.contains_iff_exists_mem_beq]

theorem lockHas_lockAdd (ex : List String) (id x : String) :
    lockHas (lockAdd ex id) x = true ↔ (x = id ∨ lockHas ex x = true) := by
  unfold lockAdd
  split
  · rename_i h
    constructor
    · exact Or.inr
    · rintro (rfl | hx)
      · exact h
      · exact hx
  · simp [lockHas_true_iff, List.mem_cons]

theorem lockHas_lockDelete (ex : List String) (id x : String) :
    lockHas (lockDelete ex id) x = true ↔ (lockHas ex x = true ∧ x ≠ id) := by
  simp [lockDelete, lockHas_true_iff, List.mem_filter]

namespace TickSys

/-- State invariant: every "running" tick-driven run holds its lock entry,
and no two "running" runs share a schedule id. -/
def Inv (s : SysState) : Prop := RunningLocked s ∧ AtMostOneRunning s

theorem inv_init : Inv initState :=
  ⟨fun r hr => by simp [initState] at hr,
   fun r1 h1 => by simp [initState] at h1⟩

theorem tryAcquire_true_not_held {ex : List String} {id : String}
    (h : (tryAcquire ex id).1 = true) : lockHas ex id = false := by
  cases hl : lockHas ex id with
  | false => rfl
  | true => simp [tryAcquire, hl] at h

theorem inv_step {s t : SysState} (hs : Inv s) (hst : Step s t) : Inv t := by
  obtain ⟨hRL, hAMO⟩ := hs
  cases hst with
  | launch sched now hmatch hacq =>
    have hfree : lockHas s.executing sched.id = false := tryAcquire_true_not_held hacq
    have hex2 : (tryAcquire s.executing sched.id).2 = sched.id :: s.executing := by
      simp [tryAcquire, hfree, lockAdd]
    constructor
    · intro r hr hrun
      simp only [hex2]
      rcases List.mem_append.1 hr with h1 | h2
      · have hl := hRL r h1 hrun
        rw [lockHas_true_iff] at hl ⊢
        exact List.mem_cons_of_mem _ hl
      · simp at h2
        rw [h2]
        rw [lockHas_true_iff]
        exact List.mem_cons_self _ _
    · intro r1 h1 r2 h2 hr1 hr2 heq
      rcases List.mem_append.1 h1 with h1a | h1b <;>
        rcases List.mem_append.1 h2 with h2a | h2b
      · exact hAMO r1 h1a r2 h2a hr1 hr2 heq
      · exfalso
        simp at h2b
        rw [h2b] at heq
        have hl := hRL r1 h1a hr1
        rw [heq] at hl
        rw [hfree] at hl
        cases hl
      · exfalso
        simp at h1b
        rw [h1b] at heq
        have hl := hRL r2 h2a hr2
        rw [← heq] at hl
        rw [hfree] at hl
        cases hl
      · simp at h1b h2b
        rw [h1b, h2b]
  | finish rid schedId final hterm hmem =>
    constructor
    · intro rr hrr hrun
      rcases List.mem_map.1 hrr with ⟨r, hr, hfr⟩
      by_cases hid : r.rid = rid
      · rw [if_pos hid] at hfr
        rw [← hfr] at hrun
        exact absurd hrun hterm
      · rw [if_neg hid] at hfr
        rw [← hfr] at hrun ⊢
        have hl := hRL r hr hrun
        have hne : r.scheduleId ≠ schedId := by
          intro hEq
          have heq2 := hAMO r hr ⟨rid, schedId, .running⟩ hmem hrun rfl hEq
          exact hid (by rw [heq2])
        rw [lockHas_lockDelete]
        exact ⟨hl, hne⟩
    · intro r1 h1 r2 h2 hr1 hr2 heq
      rcases List.mem_map.1 h1 with ⟨q1, hq1, hf1⟩
      rcases List.mem_map.1 h2 with ⟨q2, hq2, hf2⟩
      by_cases hid1 : q1.rid = rid
      · rw [if_pos hid1] at hf1
        rw [← hf1] at hr1
        exact absurd hr1 hterm
      · by_cases hid2 : q2.rid = rid
        · rw [if_pos hid2] at hf2
          rw [← hf2] at hr2
          exact absurd hr2 hterm
        · rw [if_neg hid1] at hf1
          rw [if_neg hid2] at hf2
          rw [← hf1, ← hf2] at heq ⊢
          rw [← hf1] at hr1
          rw [← hf2] at hr2
          exact hAMO q1 hq1 q2 hq2 hr1 hr2 heq

theorem inv_reachable {s : SysState} (h : Reachable s) : Inv s := by
  induction h with
  | init => exact inv_init
  | step _ hst ih => exact inv_step ih hst

end TickSys

/-- Claim C1: in every reachable state of the tick-driven scheduler, a
second acquire for an id already in the executing set fails (so the tick
skips that schedule), and consequently at most one tick-driven Run per
schedule id has status "running". -/
theorem c1_lock_mutual_exclusion (s : TickSys.SysState)
    (h : TickSys.Reachable s) :
    (∀ id, lockHas s.executing id = true → (tryAcquire s.executing id).1 = false) ∧
    TickSys.AtMostOneRunning s :=
  ⟨fun id hid => by simp [tryAcquire, hid], (TickSys.inv_reachable h).2⟩

theorem c1_lock_mutual_exclusion_witness :
    (tryAcquire ["sch-daily"] "sch-daily").1 = false ∧
    TickSys.AtMostOneRunning
      { executing := ["sch-daily"]
        runs := [{ rid := 0, scheduleId := "sch-daily", status := .running }]
        nextId := 1 } := by
  have hreach : TickSys.Reachable
      { executing := ["sch-daily"]
        runs := [{ rid := 0, scheduleId := "sch-daily", status := .running }]
        nextId := 1 } :=
    TickSys.Reachable.step TickSys.Reachable.init
      (TickSys.Step.launch TickSys.initState schedDaily nowMon8
        (by decide) (by decide))
  have h := c1_lock_mutual_exclusion _ hreach
  exact ⟨h.1 "sch-daily" (by decide), h.2⟩

theorem tickSyncPhase_launched_subset (now : Now) :
    ∀ (scheds : List ReportSchedule) (ex : List String) (s : ReportSchedule),
      s ∈ (tickSyncPhase now scheds ex).2 → s ∈ scheds := by
  intro scheds
  induction scheds with
  | nil => intro ex s h; simp [tickSyncPhase] at h
  | cons a rest ih =>
    intro ex s h
    unfold tickSyncPhase at h
    split at h
    · exact List.mem_cons_of_mem _ (ih ex s h)
    · split at h
      · simp only [List.mem_cons] at h ⊢
        rcases h with rfl | h
        · exact Or.inl rfl
        · exact Or.inr (ih (lockAdd ex a.id) s h)
      · exact List.mem_cons_of_mem _ (ih ex s h)

/-- Counterexample to claim C3: the Matcher (`shouldScheduleRun`) does not
inspect `isActive`; it returns true for a deactivated schedule at a
matching time. -/
theorem c3_matcher_ignores_isActive_cex :
    schedInactive.isActive = false ∧
    shouldScheduleRun schedInactive 8 0 1 1 = true := by
  exact ⟨rfl, by decide⟩

/-- Claim C3 amended: a schedule with isActive = false never fires, but the
guarantee comes from the Tick Loop, not the Matcher: `getActiveSchedules`
filters on isActive, so every schedule a tick launches has isActive = true
and inactive schedules are never evaluated by the Matcher. -/
theorem c3_inactive_never_launched_amended (env : ExecEnv) (now : Now)
    (repo : List ReportSchedule) (executing : List String) (st : LedgerState)
    (s : ReportSchedule) :
    (s ∈ (checkAndExecuteSchedules env now repo executing st).launched →
      s.isActive = true) ∧
    (s.isActive = false → s ∉ getActiveSchedules repo) := by
  constructor
  · intro hmem
    have hmem2 : s ∈ (tickSyncPhase now (getActiveSchedules repo) executing).2 := by
      simpa [checkAndExecuteSchedules] using hmem
    have h1 : s ∈ getActiveSchedules repo :=
      tickSyncPhase_launched_subset now (getActiveSchedules repo) executing s hmem2
    exact (List.mem_filter.1 h1).2
  · intro hinact hmem
    have h2 := (List.mem_filter.1 hmem).2
    rw [hinact] at h2
    cases h2

theorem c3_inactive_never_launched_amended_witness :
    schedDaily.isActive = true ∧
    schedInactive ∉ getActiveSchedules [schedInactive] :=
  ⟨(c3_inactive_never_launched_amended envOk nowMon8 [schedDaily] [] ledger0
      schedDaily).1 (by decide),
   (c3_inactive_never_launched_amended envOk nowMon8 [schedInactive] [] ledger0
      schedInactive).2 rfl⟩

theorem tickSyncPhase_held (now : Now) :
    ∀ (scheds : List ReportSchedule) (ex : List String) (id : String),
      lockHas ex id = true →
      lockHas (tickSyncPhase now scheds ex).1 id = true ∧
      ∀ s ∈ (tickSyncPhase now scheds ex).2, s.id ≠ id := by
  intro scheds
  induction scheds with
  | nil =>
    intro ex id h
    exact ⟨h, by intro s hs; simp [tickSyncPhase] at hs⟩
  | cons a rest ih =>
    intro ex id h
    unfold tickSyncPhase
    split
    · exact ih ex id h
    · split
      · rename_i hlock hmatch
        have hadd : lockHas (lockAdd ex a.id) id = true := by
          rw [lockHas_lockAdd]
          exact Or.inr h
        have hh := ih (lockAdd ex a.id) id hadd
        refine ⟨hh.1, ?_⟩
        intro s hs
        simp only [List.mem_cons] at hs
        rcases hs with rfl | hs
        · intro hEq
          rw [hEq] at hlock
          exact hlock h
        · exact hh.2 s hs
      · exact ih ex id h

theorem tickSettlePhase_frame (env : ExecEnv) :
    ∀ (launched : List ReportSchedule) (ex : List String) (st : LedgerState)
      (id : String),
      (∀ s ∈ launched, s.id ≠ id) → st.WF → lockHas ex id = true →
      lockHas (tickSettlePhase env launched ex st).1 id = true ∧
      runsFor id (tickSettlePhase env launched ex st).2 = runsFor id st := by
  intro launched
  induction launched with
  | nil => intro ex st id hne hwf hex; exact ⟨hex, rfl⟩
  | cons a rest ih =>
    intro ex st id hne hwf hex
    have hane : a.id ≠ id := hne a (by simp)
    have hdel : lockHas (lockDelete ex a.id) id = true := by
      rw [lockHas_lockDelete]
      exact ⟨hex, fun hEq => hane hEq.symm⟩
    have h1 := ih (lockDelete ex a.id) (executeSchedule env a st).state id
      (fun s hs => hne s (by simp [hs])) (WF_executeSchedule env a st hwf) hdel
    unfold tickSettlePhase
    refine ⟨h1.1, ?_⟩
    rw [h1.2]
    exact runsFor_executeSchedule_ne env a st id hwf (fun hEq => hane hEq.symm)

/-- Claim C10: when a tick evaluates a schedule whose id is already in the
executing set, that schedule is skipped before any Run is created: no run
row for that schedule id is created in that tick, nothing it owns in the
Run Ledger changes, and its lock entry stays held. -/
theorem c10_skip_executing (env : ExecEnv) (now : Now)
    (repo : List ReportSchedule) (executing : List String) (st : LedgerState)
    (id : String) (hheld : lockHas executing id = true) (hwf : st.WF) :
    (∀ s ∈ (checkAndExecuteSchedules env now repo executing st).launched,
      s.id ≠ id) ∧
    runsFor id (checkAndExecuteSchedules env now repo executing st).ledger =
      runsFor id st ∧
    lockHas (checkAndExecuteSchedules env now repo executing st).executing id =
      true := by
  have hsync := tickSyncPhase_held now (getActiveSchedules repo) executing id hheld
  have hsettle := tickSettlePhase_frame env
    (tickSyncPhase now (getActiveSchedules repo) executing).2
    (tickSyncPhase now (getActiveSchedules repo) executing).1 st id
    hsync.2 hwf hsync.1
  exact ⟨by simpa [checkAndExecuteSchedules] using hsync.2,
         by simpa [checkAndExecuteSchedules] using hsettle.2,
         by simpa [checkAndExecuteSchedules] using hsettle.1⟩

theorem c10_skip_executing_witness :
    runsFor "sch-daily"
      (checkAndExecuteSchedules envOk nowMon8 [schedDaily] ["sch-daily"]
        ledger0).ledger = runsFor "sch-daily" ledger0 ∧
    lockHas
      (checkAndExecuteSchedules envOk nowMon8 [schedDaily] ["sch-daily"]
        ledger0).executing "sch-daily" = true := by
  have h := c10_skip_executing envOk nowMon8 [schedDaily] ["sch-daily"] ledger0
    "sch-daily" (by decide) (by decide)
  exact ⟨h.2.1, h.2.2⟩

/-- If the error marker is visible at some poll instant and the readiness
flag is false at that instant and all earlier ones, the poll loop fails
with the upstream-data error message. -/
theorem pollFrom_error (p : ReportPage) :
    ∀ (n fuel start : Nat), n < fuel →
      start + checkInterval * n < maxWaitTime →
      p.hasError (start + checkInterval * n) = true →
      (∀ m, m ≤ n → p.ready (start + checkInterval * m) = false) →
      (pollFrom p fuel start).result = .error upstreamErrMsg := by
  intro n
  induction n with
  | zero =>
    intro fuel start hfuel hlt herr hready
    cases fuel with
    | zero => omega
    | succ f =>
      have hlt0 : start < maxWaitTime := by simpa using hlt
      have hr0 : p.ready start = false := by simpa using hready 0 (Nat.le_refl 0)
      have he0 : p.hasError start = true := by simpa using herr
      simp [pollFrom, hlt0, hr0, he0]
  | succ n ih =>
    intro fuel start hfuel hlt herr hready
    cases fuel with
    | zero => omega
    | succ f =>
      have hlt0 : start < maxWaitTime := by omega
      have hr0 : p.ready start = false := by simpa using hready 0 (Nat.zero_le _)
      cases he0 : p.hasError start with
      | true => simp [pollFrom, hlt0, hr0, he0]
      | false =>
        have harith : ∀ m : Nat,
            (start + checkInterval) + checkInterval * m =
              start + checkInterval * (m + 1) := by
          intro m; ring
        have hrec := ih f (start + checkInterval) (by omega)
          (by rw [harith]; exact hlt)
          (by rw [harith]; exact herr)
          (fun m hm => by rw [harith]; exact hready (m + 1) (by omega))
        simp [pollFrom, hlt0, hr0, he0, hrec]

/-- The poll instants are consecutive multiples of `checkInterval`. -/
theorem pollFrom_polled_times (p : ReportPage) :
    ∀ (fuel start : Nat),
      (pollFrom p fuel start).polled =
        List.range' start (pollFrom p fuel start).polled.length checkInterval := by
  intro fuel
  induction fuel with
  | zero => intro start; rfl
  | succ f ih =>
    intro start
    by_cases hlt : start < maxWaitTime
    · cases hr : p.ready start with
      | true => simp [pollFrom, hlt, hr, List.range']
      | false =>
        cases he : p.hasError start with
        | true => simp [pollFrom, hlt, hr, he, List.range']
        | false =>
          have hrest := ih (start + checkInterval)
          simp only [pollFrom, if_pos hlt, hr, Bool.false_eq_true, if_neg,
            ite_false, he]
          simp only [List.length_cons]
          rw [List.range']
          exact congrArg (start :: ·) hrest
    · simp [pollFrom, hlt]

/-- Every poll instant is below `maxWaitTime`. -/
theorem pollFrom_polled_lt (p : ReportPage) :
    ∀ (fuel start : Nat), ∀ t ∈ (pollFrom p fuel start).polled,
      t < maxWaitTime := by
  intro fuel
  induction fuel with
  | zero => intro start t ht; simp [pollFrom] at ht
  | succ f ih =>
    intro start t ht
    by_cases hlt : start < maxWaitTime
    · cases hr : p.ready start with
      | true =>
        simp [pollFrom, hlt, hr] at ht
        rw [ht]
        exact hlt
      | false =>
        cases he : p.hasError start with
        | true =>
          simp [pollFrom, hlt, hr, he] at ht
          rw [ht]
          exact hlt
        | false =>
          simp [pollFrom, hlt, hr, he] at ht
          rcases ht with rfl | ht
          · exact hlt
          · exact ih (start + checkInterval) t ht
    · simp [pollFrom, hlt] at ht

/-- The poll performs at most 30 readiness reads (60 seconds / 2 seconds). -/
theorem pollReadiness_polled_len_le (p : ReportPage) :
    (pollReadiness p).polled.length ≤ 30 := by
  by_contra hlen
  push_neg at hlen
  have hmem : (60000 : Nat) ∈ (pollReadiness p).polled := by
    unfold pollReadiness
    rw [pollFrom_polled_times]
    rw [List.mem_range']
    refine ⟨30, ?_, by norm_num [checkInterval]⟩
    simpa [pollReadiness] using hlen
  have hlt := pollFrom_polled_lt p 31 0 60000 hmem
  simp [maxWaitTime] at hlt

/-- Claim C9: a render that reaches the readiness poll and observes the
error marker before readiness produces no artifact — the render fails with
the upstream-data error — and the attempt's Run ends in status "failed"
with an errorMessage containing "not available", never "success"; the poll
reads the flag at consecutive 2-second instants, at most 30 of them
(up to 60 seconds). -/
theorem c9_error_marker_fails (env : ExecEnv) (sched : ReportSchedule)
    (st : LedgerState) (hwf : st.WF)
    (hcfg : env.emailConfigured = true)
    (hrcpt : env.recipients sched.id ≠ [])
    (hauth : (env.render sched.companyId).authNav = .ok ())
    (herr : ∃ n, n < 30 ∧
      (env.render sched.companyId).page.hasError (checkInterval * n) = true ∧
      ∀ m, m ≤ n →
        (env.render sched.companyId).page.ready (checkInterval * m) = false) :
    generatePdfResult (env.render sched.companyId) = .error upstreamErrMsg ∧
    findRun (executeSchedule env sched st).state st.nextRunId =
      some { id := st.nextRunId, scheduleId := sched.id, status := .failed
             recipientCount := 0, errorMessage := some upstreamErrMsg
             completedAt := true } ∧
    (∀ r, findRun (executeSchedule env sched st).state st.nextRunId = some r →
      r.status ≠ RunStatus.success) ∧
    (∃ pre post, upstreamErrMsg = pre ++ "not available" ++ post) ∧
    (∀ q : ReportPage,
      (pollReadiness q).polled =
        List.range' 0 (pollReadiness q).polled.length checkInterval ∧
      (pollReadiness q).polled.length ≤ 30) := by
  obtain ⟨n, hn30, hE, hR⟩ := herr
  have hpoll :
      (pollReadiness (env.render sched.companyId).page).result =
        .error upstreamErrMsg := by
    unfold pollReadiness
    refine pollFrom_error (env.render sched.companyId).page n 31 0 (by omega)
      ?_ (by simpa using hE) (fun m hm => by simpa using hR m hm)
    simp only [checkInterval, maxWaitTime]
    omega
  have hgen : generatePdfResult (env.render sched.companyId) =
      .error upstreamErrMsg := by
    simp [generatePdfResult, generatePdf, hauth, hpoll]
  have hatt : attemptOutcome env sched = (.error upstreamErrMsg, 1) := by
    have hlen : ¬(env.recipients sched.id).length = 0 := by
      simpa [List.length_eq_zero] using hrcpt
    simp [attemptOutcome, hcfg, hlen, hgen]
  have hfind : findRun (executeSchedule env sched st).state st.nextRunId =
      some { id := st.nextRunId, scheduleId := sched.id, status := .failed
             recipientCount := 0, errorMessage := some upstreamErrMsg
             completedAt := true } := by
    rw [findRun_executeSchedule env sched st hwf, hatt]
    simp [applyUpdate, runUpdateFor]
  refine ⟨hgen, hfind, ?_, ?_, ?_⟩
  · intro r hr
    rw [hfind] at hr
    cases hr
    intro hc
    cases hc
  · exact ⟨"Report page shows error - data ", " for this client", rfl⟩
  · intro q
    constructor
    · unfold pollReadiness
      exact pollFrom_polled_times q 31 0
    · exact pollReadiness_polled_len_le q

theorem c9_error_marker_fails_witness :
    findRun (executeSchedule envRenderErr schedDaily ledger0).state 0 =
      some { id := 0, scheduleId := "sch-daily", status := .failed
             recipientCount := 0, errorMessage := some upstreamErrMsg
             completedAt := true } ∧
    (pollReadiness pageErr).polled.length ≤ 30 := by
  have h := c9_error_marker_fails envRenderErr schedDaily ledger0
    (by decide) rfl (by decide) rfl ⟨0, by decide, rfl, fun m hm => rfl⟩
  exact ⟨h.2.1, (h.2.2.2.2 pageErr).2⟩
